import Mathlib

/-!
Shallow embedding of the llmprism core: the credential-vault crypto
(src/lib/crypto.ts), the vault unlock flow (AppContext), the
multi-model run orchestrator (useMultiModelRun), the routing-rule
evaluator (RoutingRulesEditor.simulateRouting), the provider adapter
connection tests (model-adapters), and model-id parsing.

Bytes are modelled as `List Nat`. The Web Crypto primitives (PBKDF2 key
derivation and AES-256-GCM) are platform APIs, not repository code; they
are modelled as an ideal authenticated cipher: encryption injectively
embeds the key material (passphrase bytes and salt) and the iv next to
the plaintext, and decryption succeeds exactly when the supplied key
material and iv match the embedded ones, returning the original
plaintext; a mismatch is the ideal counterpart of an authentication-tag
failure. Base64 (btoa and atob) is modelled as an abstract bijection on
byte lists. Randomness (crypto.getRandomValues) is modelled as reading
from a random tape at an explicit position that each call advances, so
that distinct calls draw distinct (fresh) tape regions.
-/

namespace LlmPrism

/-- Byte strings are lists of naturals. -/
abbrev Bytes := List Nat

/-- TextEncoder.encode, modelled as the sequence of character codes
(injective, which is the only property the development uses). -/
def textEncode (s : String) : Bytes := s.data.map Char.toNat

/-- TextDecoder.decode, a left inverse of textEncode. -/
def textDecode (b : Bytes) : String := String.mk (b.map Char.ofNat)

/-- Base64 text (the output of btoa), carrying the underlying bytes. -/
structure Base64 where
  bytes : Bytes
deriving DecidableEq, Repr

/-- btoa: bytes to base64 text (modelled as an abstract bijection). -/
def btoa (b : Bytes) : Base64 := ⟨b⟩

/-- atob: base64 text back to bytes. -/
def atob (s : Base64) : Bytes := s.bytes

/-- crypto.ts SALT_LENGTH. -/
def SALT_LENGTH : Nat := 16

/-- crypto.ts IV_LENGTH. -/
def IV_LENGTH : Nat := 12

/-- crypto.ts KEY_ITERATIONS, the PBKDF2 cost factor; it does not affect
the functional behaviour of the ideal cipher. -/
def KEY_ITERATIONS : Nat := 100000

/-- crypto.getRandomValues(new Uint8Array(n)): n bytes read from the
random tape rand starting at position pos. -/
def getRandomValues (rand : Nat → Nat) (pos n : Nat) : Bytes :=
  (List.range n).map (fun i => rand (pos + i) % 256)

/-- The result of deriveKey (PBKDF2-SHA256 over the passphrase and salt):
modelled as the key material itself, an injective function of the
passphrase and the salt. -/
structure DerivedKey where
  passphrase : Bytes
  salt : Bytes
deriving DecidableEq, Repr

/-- crypto.ts deriveKey. -/
def deriveKey (passphrase : String) (salt : Bytes) : DerivedKey :=
  ⟨textEncode passphrase, salt⟩

/-- Length-prefixed field used by the ideal cipher. -/
def encField (x : Bytes) : Bytes := x.length :: x

/-- Reads a length-prefixed field from ct and compares it with x; returns
the remainder on a match and none otherwise (the ideal counterpart of the
authentication-tag check). -/
def checkField (x : Bytes) (ct : Bytes) : Option Bytes :=
  match ct with
  | [] => none
  | n :: rest =>
      if n = x.length ∧ rest.take n = x then some (rest.drop n) else none

/-- Ideal AES-GCM encryption: the ciphertext embeds the key material and
the iv next to the plaintext. -/
def aesGcmEncrypt (key : DerivedKey) (iv : Bytes) (pt : Bytes) : Bytes :=
  encField key.passphrase ++ encField key.salt ++ encField iv ++ pt

/-- Ideal AES-GCM decryption: succeeds exactly on a matching key and iv
and then returns the embedded plaintext. -/
def aesGcmDecrypt (key : DerivedKey) (iv : Bytes) (ct : Bytes) : Option Bytes :=
  (checkField key.passphrase ct).bind
    (fun r1 => (checkField key.salt r1).bind
      (fun r2 => checkField iv r2))

/-- crypto.ts encrypt: draw a fresh 16-byte salt and a fresh 12-byte iv
from the random tape, derive the key, encrypt, and return
base64(salt ++ iv ++ ciphertext) together with the advanced tape
position. -/
def encrypt (plaintext passphrase : String) (rand : Nat → Nat) (pos : Nat) :
    Base64 × Nat :=
  let salt := getRandomValues rand pos SALT_LENGTH
  let iv := getRandomValues rand (pos + SALT_LENGTH) IV_LENGTH
  let key := deriveKey passphrase salt
  let encrypted := aesGcmEncrypt key iv (textEncode plaintext)
  (btoa (salt ++ iv ++ encrypted), pos + SALT_LENGTH + IV_LENGTH)

/-- crypto.ts decrypt: split the blob at byte offsets 16 and 28 into
salt, iv and ciphertext, derive the key from the supplied passphrase and
the embedded salt, and attempt authenticated decryption; none models the
promise rejection of the source. -/
def decrypt (ciphertext : Base64) (passphrase : String) : Option String :=
  let combined := atob ciphertext
  let salt := combined.take SALT_LENGTH
  let iv := (combined.drop SALT_LENGTH).take IV_LENGTH
  let encrypted := combined.drop (SALT_LENGTH + IV_LENGTH)
  let key := deriveKey passphrase salt
  (aesGcmDecrypt key iv encrypted).map textDecode

theorem length_getRandomValues (rand : Nat → Nat) (pos n : Nat) :
    (getRandomValues rand pos n).length = n := by
  simp [getRandomValues]

theorem checkField_encField_append (x rest : Bytes) :
    checkField x (encField x ++ rest) = some rest := by
  simp [checkField, encField, List.take_left, List.drop_left]

theorem checkField_encField_append_ne (x y rest : Bytes) (h : x ≠ y) :
    checkField y (encField x ++ rest) = none := by
  simp only [checkField, encField, List.cons_append]
  rw [if_neg]
  rintro ⟨hlen, htake⟩
  exact h (by rw [← htake, List.take_left])

theorem textDecode_textEncode (s : String) : textDecode (textEncode s) = s := by
  cases s with
  | mk data =>
      simp [textDecode, textEncode, List.map_map, Function.comp_def,
        Char.ofNat_toNat]

theorem textEncode_injective {a b : String} (h : textEncode a = textEncode b) :
    a = b := by
  have := congrArg textDecode h
  rwa [textDecode_textEncode, textDecode_textEncode] at this

/-- C1: for every credential set C (a JSON string) and every passphrase P,
decrypting the blob produced by encrypt(C, P) with the same passphrase P
recovers exactly C. -/
theorem decrypt_encrypt_roundtrip (C P : String) (rand : Nat → Nat) (pos : Nat) :
    decrypt (encrypt C P rand pos).1 P = some C := by
  have hsalt : (getRandomValues rand pos SALT_LENGTH).length = SALT_LENGTH :=
    length_getRandomValues ..
  have hiv :
      (getRandomValues rand (pos + SALT_LENGTH) IV_LENGTH).length = IV_LENGTH :=
    length_getRandomValues ..
  set salt := getRandomValues rand pos SALT_LENGTH with hsaltdef
  set iv := getRandomValues rand (pos + SALT_LENGTH) IV_LENGTH with hivdef
  have htake : ∀ tail : Bytes, (salt ++ tail).take SALT_LENGTH = salt := by
    intro tail
    rw [← hsalt, List.take_left]
  have hdrop : ∀ tail : Bytes, (salt ++ tail).drop SALT_LENGTH = tail := by
    intro tail
    rw [← hsalt, List.drop_left]
  have htake2 : ∀ tail : Bytes, (iv ++ tail).take IV_LENGTH = iv := by
    intro tail
    rw [← hiv, List.take_left]
  have hdrop2 : ∀ tail : Bytes, (iv ++ tail).drop IV_LENGTH = tail := by
    intro tail
    rw [← hiv, List.drop_left]
  show Option.map textDecode
      (aesGcmDecrypt
        (deriveKey P (((salt ++ iv ++ aesGcmEncrypt (deriveKey P salt) iv
          (textEncode C))).take SALT_LENGTH))
        ((((salt ++ iv ++ aesGcmEncrypt (deriveKey P salt) iv
          (textEncode C))).drop SALT_LENGTH).take IV_LENGTH)
        (((salt ++ iv ++ aesGcmEncrypt (deriveKey P salt) iv
          (textEncode C))).drop (SALT_LENGTH + IV_LENGTH))) = some C
  rw [List.append_assoc, htake, hdrop]
  have hdrop28 : (iv ++ aesGcmEncrypt (deriveKey P salt) iv
      (textEncode C)).drop IV_LENGTH =
      aesGcmEncrypt (deriveKey P salt) iv (textEncode C) := hdrop2 _
  rw [← List.append_assoc]
  have hlen : (salt ++ iv).length = SALT_LENGTH + IV_LENGTH := by
    rw [List.length_append, hsalt, hiv]
  rw [show ((salt ++ iv) ++ aesGcmEncrypt (deriveKey P salt) iv
      (textEncode C)).drop (SALT_LENGTH + IV_LENGTH) =
      aesGcmEncrypt (deriveKey P salt) iv (textEncode C) by
    rw [← hlen, List.drop_left]]
  rw [htake2]
  simp only [aesGcmEncrypt, aesGcmDecrypt, deriveKey, List.append_assoc,
    checkField_encField_append, Option.bind_some]
  simp [checkField_encField_append, textDecode_textEncode]

theorem decrypt_encrypt_wrong_passphrase (C P1 P2 : String)
    (rand : Nat → Nat) (pos : Nat) (h : P1 ≠ P2) :
    decrypt (encrypt C P1 rand pos).1 P2 = none := by
  have hsalt : (getRandomValues rand pos SALT_LENGTH).length = SALT_LENGTH :=
    length_getRandomValues ..
  have hiv :
      (getRandomValues rand (pos + SALT_LENGTH) IV_LENGTH).length = IV_LENGTH :=
    length_getRandomValues ..
  set salt := getRandomValues rand pos SALT_LENGTH with hsaltdef
  set iv := getRandomValues rand (pos + SALT_LENGTH) IV_LENGTH with hivdef
  have htake : ∀ tail : Bytes, (salt ++ tail).take SALT_LENGTH = salt := by
    intro tail
    rw [← hsalt, List.take_left]
  have hlen : (salt ++ iv).length = SALT_LENGTH + IV_LENGTH := by
    rw [List.length_append, hsalt, hiv]
  show Option.map textDecode
      (aesGcmDecrypt
        (deriveKey P2 (((salt ++ iv ++ aesGcmEncrypt (deriveKey P1 salt) iv
          (textEncode C))).take SALT_LENGTH))
        ((((salt ++ iv ++ aesGcmEncrypt (deriveKey P1 salt) iv
          (textEncode C))).drop SALT_LENGTH).take IV_LENGTH)
        (((salt ++ iv ++ aesGcmEncrypt (deriveKey P1 salt) iv
          (textEncode C))).drop (SALT_LENGTH + IV_LENGTH))) = none
  rw [List.append_assoc, htake, ← List.append_assoc]
  rw [show ((salt ++ iv) ++ aesGcmEncrypt (deriveKey P1 salt) iv
      (textEncode C)).drop (SALT_LENGTH + IV_LENGTH) =
      aesGcmEncrypt (deriveKey P1 salt) iv (textEncode C) by
    rw [← hlen, List.drop_left]]
  have hne : textEncode P1 ≠ textEncode P2 := fun hc => h (textEncode_injective hc)
  simp only [aesGcmEncrypt, aesGcmDecrypt, deriveKey, List.append_assoc]
  rw [checkField_encField_append_ne _ _ _ hne]
  rfl

/-- The vault slice of the AppContext provider state: the decrypted api
keys, the unlocked flag, and the session passphrase cache. -/
structure VaultState where
  apiKeys : List (String × String)
  isUnlocked : Bool
  cachedPassphrase : Option String
deriving DecidableEq, Repr

/-- AppContext unlockVault: with no stored blob the call is vault
creation and accepts any passphrase; with a stored blob it decrypts,
parses the JSON credential map (parseKeys models JSON.parse, an external
platform function) and installs the keys; any failure is caught and the
call returns false with the state untouched. -/
def unlockVault (stored : Option Base64)
    (parseKeys : String → Option (List (String × String)))
    (passphrase : String) (st : VaultState) : Bool × VaultState :=
  match stored with
  | none => (true, { st with isUnlocked := true, cachedPassphrase := some passphrase })
  | some blob =>
      match decrypt blob passphrase with
      | none => (false, st)
      | some decrypted =>
          match parseKeys decrypted with
          | none => (false, st)
          | some keys =>
              (true, { apiKeys := keys, isUnlocked := true,
                       cachedPassphrase := some passphrase })

/-- C4: if authenticated decryption of a stored blob fails, unlock
returns false and leaves the vault state (locked flag, credential state,
session cache) exactly as it was, exposing no plaintext; and unlocking a
blob encrypted under P1 with any different passphrase P2 always fails in
this way, whatever the JSON parser does. -/
theorem unlockVault_failure_locked
    (blob : Base64) (parseKeys : String → Option (List (String × String)))
    (P : String) (st : VaultState) (hfail : decrypt blob P = none) :
    unlockVault (some blob) parseKeys P st = (false, st) ∧
    ∀ (C P1 : String) (rand : Nat → Nat) (pos : Nat), P1 ≠ P →
      unlockVault (some (encrypt C P1 rand pos).1) parseKeys P st = (false, st) := by
  constructor
  · simp [unlockVault, hfail]
  · intro C P1 rand pos hne
    simp [unlockVault, decrypt_encrypt_wrong_passphrase C P1 P rand pos hne]

theorem unlockVault_failure_locked_witness :
    unlockVault (some (encrypt "keys" "p1" (fun _ => 0) 0).1) (fun _ => none) "p2"
        ⟨[], false, none⟩ = (false, ⟨[], false, none⟩) ∧
    unlockVault (some (btoa [])) (fun _ => none) "p2"
        ⟨[], false, none⟩ = (false, ⟨[], false, none⟩) := by
  have h := unlockVault_failure_locked (btoa []) (fun _ => none) "p2"
    ⟨[], false, none⟩ (by decide)
  exact ⟨h.2 "keys" "p1" (fun _ => 0) 0 (by decide), h.1⟩

/-- C8: every encrypt call draws its 16-byte salt from the random tape at
the current position and its 12-byte iv from the 12 bytes after it,
returns the base64 encoding of salt ++ iv ++ ciphertext in that order,
and advances the tape position by 28 so a later call never reuses these
random bytes; decrypt splits any blob at exactly byte offsets 16 and 28
into salt, iv and ciphertext. -/
theorem encrypt_blob_layout (C P : String) (rand : Nat → Nat) (pos : Nat) :
    (encrypt C P rand pos).1 =
      btoa (getRandomValues rand pos SALT_LENGTH ++
        getRandomValues rand (pos + SALT_LENGTH) IV_LENGTH ++
        aesGcmEncrypt
          (deriveKey P (getRandomValues rand pos SALT_LENGTH))
          (getRandomValues rand (pos + SALT_LENGTH) IV_LENGTH)
          (textEncode C)) ∧
    (getRandomValues rand pos SALT_LENGTH).length = 16 ∧
    (getRandomValues rand (pos + SALT_LENGTH) IV_LENGTH).length = 12 ∧
    (encrypt C P rand pos).2 = pos + 28 ∧
    (∀ blob P2, decrypt blob P2 =
      Option.map textDecode
        (aesGcmDecrypt (deriveKey P2 ((atob blob).take 16))
          (((atob blob).drop 16).take 12)
          ((atob blob).drop 28))) ∧
    (∀ b : Bytes, atob (btoa b) = b) := by
  refine ⟨rfl, length_getRandomValues .., length_getRandomValues .., rfl,
    fun blob P2 => rfl, fun b => rfl⟩

/-- JavaScript String.prototype.split(c) on a list of characters: the
(always nonempty) list of chunks between occurrences of c. -/
def splitOnChar (c : Char) : List Char → List (List Char)
  | [] => [[]]
  | a :: rest =>
      match splitOnChar c rest with
      | [] => [[a]]
      | w :: ws => if a = c then [] :: w :: ws else (a :: w) :: ws

/-- model-adapters parseModelId: split the full id on every colon; the
provider is the first chunk and the model is the remaining chunks
re-joined with colons, falling back to the provider when that join is
empty (the || in the source). -/
def parseModelId (fullModelId : String) : String × String :=
  match splitOnChar ':' fullModelId.data with
  | [] => (fullModelId, fullModelId)
  | provider :: modelParts =>
      let model := List.intercalate [':'] modelParts
      (String.mk provider, if model.isEmpty then String.mk provider else String.mk model)

/-- model-adapters formatModelId. -/
def formatModelId (provider model : String) : String :=
  provider ++ ":" ++ model

theorem splitOnChar_ne_nil (c : Char) (l : List Char) : splitOnChar c l ≠ [] := by
  cases l with
  | nil => simp [splitOnChar]
  | cons a rest =>
      simp only [splitOnChar]
      rcases h : splitOnChar c rest with _ | ⟨w, ws⟩
      · simp
      · by_cases hac : a = c <;> simp [hac]

theorem splitOnChar_no_occ (c : Char) (l : List Char) (h : c ∉ l) :
    splitOnChar c l = [l] := by
  induction l with
  | nil => rfl
  | cons a rest ih =>
      have ha : a ≠ c := fun hc => h (hc ▸ List.mem_cons_self a rest)
      have hr : c ∉ rest := fun hc => h (List.mem_cons_of_mem a hc)
      simp [splitOnChar, ih hr, ha]

theorem splitOnChar_append_cons (c : Char) (p m : List Char) (h : c ∉ p) :
    splitOnChar c (p ++ c :: m) = p :: splitOnChar c m := by
  induction p with
  | nil =>
      simp only [List.nil_append, splitOnChar]
      rcases hs : splitOnChar c m with _ | ⟨w, ws⟩
      · exact absurd hs (splitOnChar_ne_nil c m)
      · simp
  | cons a rest ih =>
      have ha : a ≠ c := fun hc => h (hc ▸ List.mem_cons_self a rest)
      have hr : c ∉ rest := fun hc => h (List.mem_cons_of_mem a hc)
      simp only [List.cons_append, splitOnChar, List.append_eq]
      rw [ih hr]
      simp [ha]

theorem intercalate_splitOnChar (c : Char) (l : List Char) :
    List.intercalate [c] (splitOnChar c l) = l := by
  induction l with
  | nil => rfl
  | cons a rest ih =>
      simp only [splitOnChar]
      rcases hs : splitOnChar c rest with _ | ⟨w, ws⟩
      · exact absurd hs (splitOnChar_ne_nil c rest)
      · rw [hs] at ih
        by_cases hac : a = c
        · subst hac
          simpa [List.intercalate, List.intersperse] using ih
        · simp only [if_neg hac]
          cases ws with
          | nil => simpa [List.intercalate, List.intersperse] using ih
          | cons w2 ws2 =>
              simp only [List.intercalate, List.intersperse] at ih ⊢
              simp_all

/-- C10: formatModelId followed by parseModelId returns the provider and
model unchanged whenever the provider contains no colon and the model is
nonempty (the model may itself contain colons); and on an input with no
colon at all, parseModelId returns the whole string as both the provider
and the model. -/
theorem parseModelId_formatModelId (p m : String)
    (hp : ':' ∉ p.data) (hm : m ≠ "") :
    parseModelId (formatModelId p m) = (p, m) ∧
    ∀ s : String, ':' ∉ s.data → parseModelId s = (s, s) := by
  constructor
  · have hdata : (formatModelId p m).data = p.data ++ ':' :: m.data := by
      simp [formatModelId]
    rw [parseModelId, hdata, splitOnChar_append_cons ':' p.data m.data hp]
    dsimp only
    rw [intercalate_splitOnChar ':' m.data]
    have hmne : m.data.isEmpty = false := by
      cases m with
      | mk d =>
          cases d with
          | nil => exact absurd rfl hm
          | cons a l => rfl
    rw [hmne]
    cases p with
    | mk pd =>
        cases m with
        | mk md => simp
  · intro s hs
    rw [parseModelId, splitOnChar_no_occ ':' s.data hs]
    dsimp only
    cases s with
    | mk d => simp [List.intercalate]

theorem parseModelId_formatModelId_witness :
    parseModelId (formatModelId "openai" "gpt-4o") = ("openai", "gpt-4o") ∧
    parseModelId "gpt-4o" = ("gpt-4o", "gpt-4o") := by
  have h := parseModelId_formatModelId "openai" "gpt-4o" (by decide) (by decide)
  exact ⟨h.1, h.2 "gpt-4o" (by decide)⟩

/-- Content-length buckets of the routing rules. -/
inductive ContentLength where
  | short
  | medium
  | long
deriving DecidableEq, Repr

/-- RoutingRule.condition from storage.ts: every field optional; preset
is a free-form string there. -/
structure RuleCondition where
  preset : Option String
  contentLength : Option ContentLength
  hasCode : Option Bool
deriving DecidableEq, Repr

/-- RoutingRule from storage.ts. -/
structure RoutingRule where
  id : String
  name : String
  condition : RuleCondition
  preferredModels : List String
  enabled : Bool
deriving DecidableEq, Repr

/-- JavaScript truthiness of a string: every string but the empty one. -/
def jsTruthy (s : String) : Bool := s ≠ ""

/-- The content-length bucketing inlined in simulateRouting:
promptLength < 500 ? short : promptLength < 2000 ? medium : long. -/
def contentLengthBucket (promptLength : Nat) : ContentLength :=
  if promptLength < 500 then ContentLength.short
  else if promptLength < 2000 then ContentLength.medium
  else ContentLength.long

/-- The per-rule condition test of simulateRouting: each of the three
guards clears the match flag when its field is truthy (for preset) or
present (for contentLength, via its non-empty enum values, and hasCode,
via an explicit undefined test) and differs from the input. -/
def ruleMatches (rule : RoutingRule) (preset : String)
    (contentLength : ContentLength) (hasCode : Bool) : Bool :=
  let presetOk : Bool :=
    match rule.condition.preset with
    | some p => !(jsTruthy p && p != preset)
    | none => true
  let lengthOk : Bool :=
    match rule.condition.contentLength with
    | some cl => !(cl != contentLength)
    | none => true
  let hasCodeOk : Bool :=
    match rule.condition.hasCode with
    | some hc => !(hc != hasCode)
    | none => true
  presetOk && lengthOk && hasCodeOk

/-- RoutingRulesEditor.simulateRouting: bucket the prompt length, fix
hasCode to false (the source has no content analysis), scan the enabled
rules in stored order and return the first match with its preferred
models, or no match. -/
def simulateRouting (rules : List RoutingRule) (preset : String)
    (promptLength : Nat) : Option RoutingRule × List String :=
  let contentLength := contentLengthBucket promptLength
  let hasCode := false
  match (rules.filter (fun r => r.enabled)).find?
      (fun r => ruleMatches r preset contentLength hasCode) with
  | some r => (some r, r.preferredModels)
  | none => (none, [])

/-- C5: the bucketing at and around its boundaries; a prompt length of
exactly 2000 characters is bucketed long by the code, although the
editor labels in the same file document medium as 500-2000 and long as
strictly greater than 2000. -/
theorem contentLengthBucket_boundaries :
    contentLengthBucket 2000 = ContentLength.long ∧
    contentLengthBucket 1999 = ContentLength.medium ∧
    contentLengthBucket 500 = ContentLength.medium ∧
    contentLengthBucket 499 = ContentLength.short ∧
    contentLengthBucket 0 = ContentLength.short ∧
    contentLengthBucket 2001 = ContentLength.long := by
  decide

theorem find?_filter_eq (l : List RoutingRule) (q p : RoutingRule → Bool) :
    (l.filter q).find? p = l.find? (fun a => q a && p a) := by
  induction l with
  | nil => rfl
  | cons b rest ih =>
      by_cases hq : q b
      · by_cases hp : p b
        · simp [List.filter_cons, hq, List.find?_cons, hp]
        · simp [List.filter_cons, hq, List.find?_cons, hp, ih]
      · simp [List.filter_cons, hq, List.find?_cons, ih]

theorem find?_eq_some_split (p : RoutingRule → Bool) (l : List RoutingRule)
    (a : RoutingRule) (h : l.find? p = some a) :
    ∃ l₁ l₂, l = l₁ ++ a :: l₂ ∧ p a = true ∧ ∀ x ∈ l₁, p x = false := by
  induction l with
  | nil => cases h
  | cons b rest ih =>
      by_cases hb : p b
      · rw [List.find?_cons_of_pos _ hb] at h
        obtain rfl : b = a := by injection h
        exact ⟨[], rest, rfl, hb, by simp⟩
      · rw [List.find?_cons_of_neg _ hb] at h
        obtain ⟨l₁, l₂, rfl, hpa, hall⟩ := ih h
        refine ⟨b :: l₁, l₂, rfl, hpa, ?_⟩
        intro x hx
        rcases List.mem_cons.mp hx with rfl | hx2
        · exact Bool.eq_false_iff.mpr hb
        · exact hall x hx2

/-- C6 (counterexample): a rule whose condition specifies the empty
string as its preset is returned as a match for the preset "code",
because the source guards the comparison behind JS truthiness; under the
claim a specified preset that differs from the input must not match. -/
theorem simulateRouting_empty_preset_counterexample :
    (simulateRouting
      [⟨"r1", "empty preset", ⟨some "", none, none⟩, ["openai:gpt-4o"], true⟩]
      "code" 0).1 =
      some ⟨"r1", "empty preset", ⟨some "", none, none⟩, ["openai:gpt-4o"], true⟩ ∧
    (RuleCondition.mk (some "") none none).preset = some "" ∧
    ("" : String) ≠ "code" := by
  refine ⟨rfl, rfl, by decide⟩

/-- C6 (amended): simulateRouting returns the first enabled rule in
stored order whose every specified condition field matches the input,
except that a preset condition equal to the empty string is treated as
absent (a wildcard) by JS truthiness; hasCode is compared against false;
if no enabled rule matches it returns no match and an empty model
list. -/
theorem simulateRouting_eq (rules : List RoutingRule) (preset : String)
    (promptLength : Nat) :
    simulateRouting rules preset promptLength =
      match rules.find? (fun r => r.enabled &&
          ruleMatches r preset (contentLengthBucket promptLength) false) with
      | some r => (some r, r.preferredModels)
      | none => (none, []) := by
  simp only [simulateRouting]
  rw [find?_filter_eq]

theorem simulateRouting_first_enabled_match (rules : List RoutingRule)
    (preset : String) (promptLength : Nat) :
    (∀ r, (simulateRouting rules preset promptLength).1 = some r →
      ∃ pre post, rules = pre ++ r :: post ∧ r.enabled = true ∧
        ruleMatches r preset (contentLengthBucket promptLength) false = true ∧
        (simulateRouting rules preset promptLength).2 = r.preferredModels ∧
        ∀ q ∈ pre, q.enabled = true →
          ruleMatches q preset (contentLengthBucket promptLength) false = false) ∧
    ((simulateRouting rules preset promptLength).1 = none →
      (simulateRouting rules preset promptLength).2 = [] ∧
      ∀ r ∈ rules, r.enabled = true →
        ruleMatches r preset (contentLengthBucket promptLength) false = false) := by
  constructor
  · intro r hr
    rcases hf : rules.find? (fun r => r.enabled &&
        ruleMatches r preset (contentLengthBucket promptLength) false) with _ | a
    · rw [simulateRouting_eq, hf] at hr
      simp at hr
    · rw [simulateRouting_eq, hf] at hr
      simp only [Option.some.injEq] at hr
      subst hr
      obtain ⟨pre, post, hsplit, hpa, hall⟩ := find?_eq_some_split _ _ _ hf
      rcases Bool.and_eq_true_iff.mp hpa with ⟨hen, hm⟩
      refine ⟨pre, post, hsplit, hen, hm, ?_, ?_⟩
      · rw [simulateRouting_eq, hf]
      · intro q hq hqen
        have hqfalse := hall q hq
        rcases Bool.and_eq_false_iff.mp hqfalse with h1 | h2
        · rw [hqen] at h1
          cases h1
        · exact h2
  · intro hnone
    rcases hf : rules.find? (fun r => r.enabled &&
        ruleMatches r preset (contentLengthBucket promptLength) false) with _ | a
    · constructor
      · rw [simulateRouting_eq, hf]
      · intro r hrmem hren
        have hfalse : (r.enabled &&
            ruleMatches r preset (contentLengthBucket promptLength) false) = false :=
          Bool.eq_false_iff.mpr (List.find?_eq_none.mp hf r hrmem)
        rcases Bool.and_eq_false_iff.mp hfalse with h1 | h2
        · rw [hren] at h1
          cases h1
        · exact h2
    · rw [simulateRouting_eq, hf] at hnone
      simp at hnone

/-- An always-matching enabled rule used to instantiate the routing
theorems. -/
def sampleRule : RoutingRule :=
  ⟨"default-code", "Code rule", ⟨none, none, none⟩,
    ["anthropic:claude-3-5-sonnet-20241022"], true⟩

theorem simulateRouting_first_enabled_match_witness :
    ∃ pre post, [sampleRule] = pre ++ sampleRule :: post ∧
      sampleRule.enabled = true ∧
      ruleMatches sampleRule "code" (contentLengthBucket 0) false = true ∧
      (simulateRouting [sampleRule] "code" 0).2 = sampleRule.preferredModels ∧
      ∀ q ∈ pre, q.enabled = true →
        ruleMatches q "code" (contentLengthBucket 0) false = false :=
  (simulateRouting_first_enabled_match [sampleRule] "code" 0).1 sampleRule (by decide)

/-- A fetch response as far as testConnection consumes it. -/
structure FetchResponse where
  ok : Bool
deriving DecidableEq, Repr

/-- The outcome of an awaited fetch: a response, or a thrown network
error. -/
abbrev FetchOutcome := Except Unit FetchResponse

/-- openaiAdapter.testConnection: GET /v1/models inside try/catch,
returning response.ok, with any throw collapsing to false. -/
def openaiTestConnection (fetchModels : FetchOutcome) : Bool :=
  match fetchModels with
  | Except.ok resp => resp.ok
  | Except.error _ => false

/-- anthropicAdapter.testConnection: a pure format check on the key. -/
def anthropicTestConnection (apiKey : String) : Bool :=
  apiKey.startsWith "sk-ant-"

/-- geminiAdapter.testConnection: GET the models listing inside
try/catch, returning response.ok, with any throw collapsing to false. -/
def geminiTestConnection (fetchModels : FetchOutcome) : Bool :=
  match fetchModels with
  | Except.ok resp => resp.ok
  | Except.error _ => false

/-- C9: every adapter connection test is a total boolean function of its
environment: a thrown fetch produces false for the openai and gemini
adapters, a returned response produces its ok flag (so any non-success
status is false), and the anthropic test is the pure prefix check on the
credential, which cannot throw. -/
theorem testConnection_never_throws (o : FetchOutcome) (key : String) :
    (∀ e, o = Except.error e →
      openaiTestConnection o = false ∧ geminiTestConnection o = false) ∧
    (∀ resp, o = Except.ok resp →
      openaiTestConnection o = resp.ok ∧ geminiTestConnection o = resp.ok) ∧
    anthropicTestConnection key = key.startsWith "sk-ant-" := by
  refine ⟨?_, ?_, rfl⟩
  · rintro e rfl
    exact ⟨rfl, rfl⟩
  · rintro resp rfl
    exact ⟨rfl, rfl⟩

theorem testConnection_never_throws_witness :
    (openaiTestConnection (Except.error ()) = false ∧
      geminiTestConnection (Except.error ()) = false) ∧
    (openaiTestConnection (Except.ok ⟨false⟩) = false ∧
      geminiTestConnection (Except.ok ⟨false⟩) = false) ∧
    anthropicTestConnection "bad-key" = "bad-key".startsWith "sk-ant-" := by
  have h1 := (testConnection_never_throws (Except.error ()) "bad-key").1 () rfl
  have h2 := (testConnection_never_throws (Except.ok ⟨false⟩) "bad-key").2.1 ⟨false⟩ rfl
  have h3 := (testConnection_never_throws (Except.error ()) "bad-key").2.2
  exact ⟨h1, ⟨h2.1, h2.2⟩, h3⟩

/-- Token usage counters of a normalized response. -/
structure Usage where
  promptTokens : Nat
  completionTokens : Nat
  totalTokens : Nat
deriving DecidableEq, Repr

/-- A normalized model response as the orchestrator consumes it. -/
structure ModelResponse where
  content : String
  usage : Usage
  provider : String
  model : String
deriving DecidableEq, Repr

/-- ModelRunStatus.status values. -/
inductive TaskState where
  | pending
  | running
  | success (response : ModelResponse)
  | error (message : String) (canRetry : Bool)
  | cancelled
deriving DecidableEq, Repr

/-- The terminal states of a task. -/
def isTerminal : TaskState → Bool
  | TaskState.success _ => true
  | TaskState.error _ _ => true
  | TaskState.cancelled => true
  | _ => false

/-- Discriminates the success state. -/
def isSuccess : TaskState → Bool
  | TaskState.success _ => true
  | _ => false

/-- One entry of the statuses array of useMultiModelRun. -/
structure ModelRunStatus where
  modelId : String
  provider : String
  model : String
  status : TaskState
deriving DecidableEq, Repr

/-- The outcome of the awaited provider call (or demo response) of one
task: a resolved response or a thrown error message. -/
inductive SendOutcome where
  | success (response : ModelResponse)
  | failure (message : String)
deriving DecidableEq, Repr

/-- The oracle for one task: whether the abort signal was observed set at
the check before the awaited call, whether it was set at the checks
after it (including inside the catch), and the outcome of the call
itself. -/
structure TaskEnv where
  abortedBeforeSend : Bool
  abortedAfterSend : Bool
  outcome : SendOutcome
deriving DecidableEq, Repr

/-- The keys of the modelAdapters registry. -/
def knownProviders : List String := ["openai", "anthropic", "gemini"]

/-- The `!adapter || !apiKey` guard of runSingleModel: the provider is a
registered adapter and the stored key is truthy (a missing or empty
string key is falsy). -/
def credentialOk (apiKeys : List (String × String)) (provider : String) : Bool :=
  knownProviders.contains provider &&
    (match List.lookup provider apiKeys with
     | some key => jsTruthy key
     | none => false)

/-- The terminal state reached after the awaited call resolves or
throws: the abort signal is consulted first (both the post-await check
and the catch mark the task cancelled when set), then a resolved
response yields success and a thrown error yields a retryable error. -/
def sendTerminal (env : TaskEnv) : TaskState :=
  if env.abortedAfterSend then TaskState.cancelled
  else
    match env.outcome with
    | SendOutcome.success r => TaskState.success r
    | SendOutcome.failure msg => TaskState.error msg true

/-- The terminal state of one runSingleModel task: an abort observed
before the call cancels it; otherwise demo mode or a configured
credential lead to the awaited call, and a missing adapter or missing or
empty key is an immediate retryable error with the fixed message of the
source. -/
def taskTerminal (demoMode : Bool) (apiKeys : List (String × String))
    (env : TaskEnv) (modelId : String) : TaskState :=
  if env.abortedBeforeSend then TaskState.cancelled
  else if demoMode then sendTerminal env
  else if credentialOk apiKeys (parseModelId modelId).1 then sendTerminal env
  else TaskState.error "No API key configured" true

/-- The status updates a task pushes into the shared statuses array (in
order), and the value it returns to the join point. -/
structure RunSingleResult where
  updates : List (String × TaskState)
  ret : Option ModelResponse
deriving DecidableEq, Repr

/-- useMultiModelRun.runSingleModel: every path first marks the task
running and then applies exactly one terminal update; the task returns
its response exactly on the success path and null otherwise. -/
def runSingleModel (demoMode : Bool) (apiKeys : List (String × String))
    (env : TaskEnv) (modelId : String) : RunSingleResult :=
  let terminal := taskTerminal demoMode apiKeys env modelId
  ⟨[(modelId, TaskState.running), (modelId, terminal)],
    match terminal with
    | TaskState.success r => some r
    | _ => none⟩

/-- The initial pending statuses array built by run. -/
def initStatuses (selectedModels : List String) : List ModelRunStatus :=
  selectedModels.map (fun modelId =>
    ⟨modelId, (parseModelId modelId).1, (parseModelId modelId).2, TaskState.pending⟩)

/-- One setStatuses call: rewrite the status of every entry whose
modelId matches the update. -/
def applyUpdate (statuses : List ModelRunStatus) (u : String × TaskState) :
    List ModelRunStatus :=
  statuses.map (fun s => if s.modelId = u.1 then { s with status := u.2 } else s)

/-- A sequence of setStatuses calls applied in order. -/
def applyUpdates (statuses : List ModelRunStatus)
    (upds : List (String × TaskState)) : List ModelRunStatus :=
  upds.foldl applyUpdate statuses

/-- The orchestrator state visible to cancel: the statuses array and the
abort-controller map (modelId to its aborted flag); controllers are
registered at task start and never removed when a task finishes. -/
structure OrchestratorState where
  statuses : List ModelRunStatus
  controllers : List (String × Bool)
deriving DecidableEq, Repr

/-- useMultiModelRun.run: initialize one pending status per selected
model, clear the controller map, launch every task (the concurrent
interleaving of their status updates is linearized task by task, which
is the unique outcome when the model ids are distinct since different
tasks touch disjoint entries), join, and return the non-null results in
task order. The per-model oracle envs stands for the network behaviour
of this run's prompt. -/
def run (demoMode : Bool) (apiKeys : List (String × String))
    (envs : String → TaskEnv) (selectedModels : List String) :
    OrchestratorState × List ModelResponse :=
  if selectedModels.isEmpty then (⟨[], []⟩, [])
  else
    let tasks := selectedModels.map
      (fun id => runSingleModel demoMode apiKeys (envs id) id)
    let finalStatuses := applyUpdates (initStatuses selectedModels)
      (tasks.map (fun t => t.updates)).flatten
    let controllers := selectedModels.map (fun id =>
      (id, (envs id).abortedBeforeSend || (envs id).abortedAfterSend))
    (⟨finalStatuses, controllers⟩, tasks.filterMap (fun t => t.ret))

/-- abortControllersRef.current.get(id): the first binding for the id in
the controller map. -/
def findController (id : String) : List (String × Bool) → Option Bool
  | [] => none
  | c :: rest => if id = c.1 then some c.2 else findController id rest

/-- useMultiModelRun.cancel: with an id, abort and mark cancelled
whenever a controller is registered for that id (whatever the current
status); without an id, abort every controller and mark exactly the
running and pending tasks cancelled. -/
def cancel (st : OrchestratorState) (modelId : Option String) :
    OrchestratorState :=
  match modelId with
  | some id =>
      match findController id st.controllers with
      | some _ =>
          ⟨st.statuses.map (fun s =>
              if s.modelId = id then { s with status := TaskState.cancelled } else s),
            st.controllers.map (fun c => if c.1 = id then (c.1, true) else c)⟩
      | none => st
  | none =>
      ⟨st.statuses.map (fun s =>
          if s.status = TaskState.running ∨ s.status = TaskState.pending then
            { s with status := TaskState.cancelled }
          else s),
        st.controllers.map (fun c => (c.1, true))⟩

/-- The net effect of a sequence of status updates on one entry. -/
def applyTo (st : TaskState) (id : String) (upds : List (String × TaskState)) :
    TaskState :=
  upds.foldl (fun acc u => if id = u.1 then u.2 else acc) st

theorem applyTo_cons (st : TaskState) (id : String) (u : String × TaskState)
    (rest : List (String × TaskState)) :
    applyTo st id (u :: rest) = applyTo (if id = u.1 then u.2 else st) id rest := rfl

theorem applyUpdates_eq_map (upds : List (String × TaskState)) :
    ∀ sts : List ModelRunStatus, applyUpdates sts upds =
      sts.map (fun s => { s with status := applyTo s.status s.modelId upds }) := by
  induction upds with
  | nil =>
      intro sts
      exact (List.map_id sts).symm
  | cons u rest ih =>
      intro sts
      show applyUpdates (applyUpdate sts u) rest = _
      rw [ih (applyUpdate sts u), applyUpdate, List.map_map]
      congr 1
      funext s
      by_cases h : s.modelId = u.1 <;> simp [h, applyTo_cons, Function.comp]

theorem applyTo_append (st : TaskState) (id : String)
    (l₁ l₂ : List (String × TaskState)) :
    applyTo st id (l₁ ++ l₂) = applyTo (applyTo st id l₁) id l₂ := by
  simp [applyTo, List.foldl_append]

theorem applyTo_of_not_mem (id : String) (upds : List (String × TaskState))
    (h : ∀ u ∈ upds, u.1 ≠ id) : ∀ st, applyTo st id upds = st := by
  induction upds with
  | nil => intro st; rfl
  | cons u rest ih =>
      intro st
      rw [applyTo_cons,
        if_neg (fun hc => (h u (List.mem_cons_self u rest)) hc.symm)]
      exact ih (fun v hv => h v (List.mem_cons_of_mem _ hv)) st

theorem isTerminal_sendTerminal (env : TaskEnv) :
    isTerminal (sendTerminal env) = true := by
  rcases env with ⟨b1, b2, oc⟩
  cases b2 <;> rcases oc with r | m <;> simp [sendTerminal, isTerminal]

theorem isTerminal_taskTerminal (dm : Bool) (ak : List (String × String))
    (env : TaskEnv) (id : String) :
    isTerminal (taskTerminal dm ak env id) = true := by
  unfold taskTerminal
  by_cases h1 : env.abortedBeforeSend
  · simp [h1, isTerminal]
  · simp only [h1, Bool.false_eq_true, if_false]
    cases dm with
    | false =>
        by_cases hc : credentialOk ak (parseModelId id).1
        · simp [hc, isTerminal_sendTerminal]
        · simp [hc, isTerminal]
    | true => simp [isTerminal_sendTerminal]

theorem run_statuses_eq (dm : Bool) (apiKeys : List (String × String))
    (envs : String → TaskEnv) (ids : List String) (hnd : ids.Nodup) :
    applyUpdates (initStatuses ids)
      ((ids.map (fun id => (runSingleModel dm apiKeys (envs id) id).updates)).flatten) =
    ids.map (fun id => ⟨id, (parseModelId id).1, (parseModelId id).2,
      taskTerminal dm apiKeys (envs id) id⟩) := by
  rw [applyUpdates_eq_map, initStatuses, List.map_map]
  apply List.map_congr_left
  intro id hid
  obtain ⟨l₁, l₂, rfl⟩ := List.append_of_mem hid
  have hsplit := List.nodup_append.mp hnd
  have h₁ : id ∉ l₁ := fun hc =>
    hsplit.2.2 hc (List.mem_cons_self id l₂)
  have h₂ : id ∉ l₂ := (List.nodup_cons.mp hsplit.2.1).1
  have hkeys : ∀ (l : List String), id ∉ l →
      ∀ u ∈ ((l.map (fun i => (runSingleModel dm apiKeys (envs i) i).updates)).flatten),
        u.1 ≠ id := by
    intro l hl u hu
    obtain ⟨lst, hlst, hulst⟩ := List.mem_flatten.mp hu
    obtain ⟨i, hil, rfl⟩ := List.mem_map.mp hlst
    have : u.1 = i := by
      rcases List.mem_cons.mp hulst with rfl | h2
      · rfl
      · rcases List.mem_cons.mp h2 with rfl | h3
        · rfl
        · cases h3
    rw [this]
    intro hc
    exact hl (hc ▸ hil)
  simp only [List.map_append, List.map_cons, List.flatten_append,
    List.flatten_cons, Function.comp_apply]
  rw [applyTo_append, applyTo_of_not_mem id _ (hkeys l₁ h₁), applyTo_append,
    applyTo_of_not_mem id _ (hkeys l₂ h₂)]
  simp [runSingleModel, applyTo]

/-- A concrete successful response used to instantiate the orchestrator
theorems. -/
def sampleResponse : ModelResponse := ⟨"hello", ⟨1, 2, 3⟩, "openai", "gpt-4o"⟩

theorem length_filterMap_eq_countP {α β : Type} (f : α → Option β)
    (l : List α) :
    (l.filterMap f).length = l.countP (fun a => (f a).isSome) := by
  induction l with
  | nil => rfl
  | cons a rest ih =>
      rcases hfa : f a with _ | b <;>
        simp [List.filterMap_cons, hfa, List.countP_cons, ih]

/-- C2: for distinct model ids, run resolves with every task in a
terminal state, and the returned list is exactly the responses of the
tasks whose final status is success, in order; its length is the number
of successful tasks and at most the number of ids. -/
theorem run_join_semantics (dm : Bool) (apiKeys : List (String × String))
    (envs : String → TaskEnv) (ids : List String)
    (hnd : ids.Nodup) (hne : ids ≠ []) :
    (run dm apiKeys envs ids).1.statuses.length = ids.length ∧
    (∀ s ∈ (run dm apiKeys envs ids).1.statuses, isTerminal s.status = true) ∧
    (run dm apiKeys envs ids).2 =
      (run dm apiKeys envs ids).1.statuses.filterMap
        (fun s => match s.status with
          | TaskState.success r => some r
          | _ => none) ∧
    (run dm apiKeys envs ids).2.length =
      ((run dm apiKeys envs ids).1.statuses.filter
        (fun s => isSuccess s.status)).length ∧
    (run dm apiKeys envs ids).2.length ≤ ids.length := by
  have hempty : ids.isEmpty = false := by
    cases ids with
    | nil => exact absurd rfl hne
    | cons a t => rfl
  have hst : (run dm apiKeys envs ids).1.statuses =
      ids.map (fun id => ⟨id, (parseModelId id).1, (parseModelId id).2,
        taskTerminal dm apiKeys (envs id) id⟩) := by
    simp only [run, hempty, Bool.false_eq_true, if_false, List.map_map]
    exact run_statuses_eq dm apiKeys envs ids hnd
  have hres : (run dm apiKeys envs ids).2 =
      ids.filterMap (fun id =>
        match taskTerminal dm apiKeys (envs id) id with
        | TaskState.success r => some r
        | _ => none) := by
    simp only [run, hempty, Bool.false_eq_true, if_false, List.filterMap_map]
    rfl
  refine ⟨?_, ?_, ?_, ?_, ?_⟩
  · rw [hst, List.length_map]
  · intro s hs
    rw [hst] at hs
    obtain ⟨id, hidmem, rfl⟩ := List.mem_map.mp hs
    exact isTerminal_taskTerminal ..
  · rw [hres, hst, List.filterMap_map]
    rfl
  · rw [hres, hst, List.filter_map, List.length_map,
      length_filterMap_eq_countP, List.countP_eq_length_filter]
    congr 1
    apply List.filter_congr
    intro id hidmem
    cases htt : taskTerminal dm apiKeys (envs id) id <;>
      simp [isSuccess, Function.comp_def, htt]
  · rw [hres, length_filterMap_eq_countP]
    exact List.countP_le_length _

theorem run_join_semantics_witness :
    (run false [("openai", "k")]
      (fun _ => ⟨false, false, SendOutcome.success sampleResponse⟩)
      ["openai:gpt-4o"]).1.statuses.length = (["openai:gpt-4o"] : List String).length ∧
    (∀ s ∈ (run false [("openai", "k")]
      (fun _ => ⟨false, false, SendOutcome.success sampleResponse⟩)
      ["openai:gpt-4o"]).1.statuses, isTerminal s.status = true) ∧
    (run false [("openai", "k")]
      (fun _ => ⟨false, false, SendOutcome.success sampleResponse⟩)
      ["openai:gpt-4o"]).2 =
      (run false [("openai", "k")]
        (fun _ => ⟨false, false, SendOutcome.success sampleResponse⟩)
        ["openai:gpt-4o"]).1.statuses.filterMap
          (fun s => match s.status with
            | TaskState.success r => some r
            | _ => none) ∧
    (run false [("openai", "k")]
      (fun _ => ⟨false, false, SendOutcome.success sampleResponse⟩)
      ["openai:gpt-4o"]).2.length =
      ((run false [("openai", "k")]
        (fun _ => ⟨false, false, SendOutcome.success sampleResponse⟩)
        ["openai:gpt-4o"]).1.statuses.filter
          (fun s => isSuccess s.status)).length ∧
    (run false [("openai", "k")]
      (fun _ => ⟨false, false, SendOutcome.success sampleResponse⟩)
      ["openai:gpt-4o"]).2.length ≤ (["openai:gpt-4o"] : List String).length :=
  run_join_semantics false [("openai", "k")]
    (fun _ => ⟨false, false, SendOutcome.success sampleResponse⟩)
    ["openai:gpt-4o"] (by decide) (by decide)

theorem findController_map_setTrue (id : String) (cs : List (String × Bool))
    (b : Bool) (h : findController id cs = some b) :
    findController id
      (cs.map (fun c => if c.1 = id then (c.1, true) else c)) = some true := by
  induction cs with
  | nil => cases h
  | cons c rest ih =>
      rcases c with ⟨k, v⟩
      by_cases hc : id = k
      · subst hc
        simp [findController]
      · have hk : ¬ (k = id) := fun h2 => hc h2.symm
        simp only [findController, if_neg hc] at h
        simp only [List.map_cons, if_neg hk, findController, if_neg hc]
        exact ih h

/-- C3 (counterexample): after a one-model run whose task succeeded (a
terminal status, with its abort controller still registered because the
map is only cleared at the start of the next run), cancel with that id
overwrites the terminal success status with cancelled, so cancelling a
terminal task is not a no-op. -/
theorem cancel_terminal_counterexample :
    ((run false [("openai", "k")]
        (fun _ => ⟨false, false, SendOutcome.success sampleResponse⟩)
        ["openai:gpt-4o"]).1.statuses.map (fun s => s.status)) =
      [TaskState.success sampleResponse] ∧
    ((cancel (run false [("openai", "k")]
        (fun _ => ⟨false, false, SendOutcome.success sampleResponse⟩)
        ["openai:gpt-4o"]).1 (some "openai:gpt-4o")).statuses.map
          (fun s => s.status)) = [TaskState.cancelled] ∧
    TaskState.success sampleResponse ≠ TaskState.cancelled := by
  refine ⟨by decide, by decide, by decide⟩

theorem getElem?_map_list {α β : Type} (f : α → β) (l : List α) (i : Nat) :
    (l.map f)[i]? = (l[i]?).map f := by
  induction l generalizing i with
  | nil => simp
  | cons a t ih => cases i <;> simp [ih]

/-- C3 (amended): cancel(id) is idempotent, so a second call produces no
further status change; cancel(id) for an id with no registered
controller is a no-op; but when a controller is registered, cancel(id)
marks that task cancelled whatever its current status, terminal states
included; cancel with no id leaves every terminal task unchanged. -/
theorem cancel_second_call_no_change (st : OrchestratorState) (id : String) :
    cancel (cancel st (some id)) (some id) = cancel st (some id) ∧
    (findController id st.controllers = none → cancel st (some id) = st) ∧
    (∀ b, findController id st.controllers = some b →
      ∀ (i : Nat) (s : ModelRunStatus), st.statuses[i]? = some s →
        s.modelId = id →
        (cancel st (some id)).statuses[i]? =
          some { s with status := TaskState.cancelled }) ∧
    (∀ (i : Nat) (s : ModelRunStatus), st.statuses[i]? = some s →
      isTerminal s.status = true →
      (cancel st none).statuses[i]? = some s) := by
  refine ⟨?_, ?_, ?_, ?_⟩
  · rcases hl : findController id st.controllers with _ | b
    · simp [cancel, hl]
    · have hl2 := findController_map_setTrue id st.controllers b hl
      simp only [cancel, hl, hl2]
      congr 1
      · rw [List.map_map]
        apply List.map_congr_left
        intro s hs
        by_cases h : s.modelId = id <;> simp [h, Function.comp_def]
      · rw [List.map_map]
        apply List.map_congr_left
        intro c hc
        by_cases h : c.1 = id <;> simp [h, Function.comp_def]
  · intro h
    simp [cancel, h]
  · intro b hb i s hi hmid
    simp [cancel, hb, getElem?_map_list, hi, hmid]
  · intro i s hi hterm
    have h1 : s.status ≠ TaskState.running := by
      intro hc
      rw [hc] at hterm
      cases hterm
    have h2 : s.status ≠ TaskState.pending := by
      intro hc
      rw [hc] at hterm
      cases hterm
    simp [cancel, getElem?_map_list, hi, h1, h2]

theorem cancel_second_call_no_change_witness :
    cancel (cancel ⟨[⟨"a", "openai", "gpt-4o", TaskState.success sampleResponse⟩],
        [("a", false)]⟩ (some "a")) (some "a") =
      cancel ⟨[⟨"a", "openai", "gpt-4o", TaskState.success sampleResponse⟩],
        [("a", false)]⟩ (some "a") ∧
    (cancel ⟨[⟨"a", "openai", "gpt-4o", TaskState.success sampleResponse⟩],
        [("a", false)]⟩ none).statuses[0]? =
      some ⟨"a", "openai", "gpt-4o", TaskState.success sampleResponse⟩ := by
  have h := cancel_second_call_no_change
    ⟨[⟨"a", "openai", "gpt-4o", TaskState.success sampleResponse⟩],
      [("a", false)]⟩ "a"
  exact ⟨h.1, h.2.2.2 0 ⟨"a", "openai", "gpt-4o",
    TaskState.success sampleResponse⟩ rfl rfl⟩

/-- C7 (counterexample): a task whose provider has no configured key is
marked running before the credential check, so its status trace is
running followed by the error, and the fixed message of the source is
"No API key configured", not "no credential configured". -/
theorem missing_credential_counterexample :
    (runSingleModel false [] ⟨false, false, SendOutcome.failure "network down"⟩
        "openai:gpt-4o").updates =
      [("openai:gpt-4o", TaskState.running),
        ("openai:gpt-4o", TaskState.error "No API key configured" true)] ∧
    ("No API key configured" : String) ≠ "no credential configured" ∧
    ("openai:gpt-4o", TaskState.running) ∈
      (runSingleModel false [] ⟨false, false, SendOutcome.failure "network down"⟩
        "openai:gpt-4o").updates := by
  refine ⟨by decide, by decide, by decide⟩

/-- C7 (amended): with demo mode off and an unconfigured credential (no
registered adapter, or a missing or empty key), a task that is not
already aborted transitions pending to running to a terminal retryable
error carrying the fixed message "No API key configured", returns null,
and its result does not depend on the network oracle at all (no network
call is made). -/
theorem runSingleModel_missing_credential (apiKeys : List (String × String))
    (env : TaskEnv) (modelId : String)
    (hcred : credentialOk apiKeys (parseModelId modelId).1 = false)
    (hab : env.abortedBeforeSend = false) :
    runSingleModel false apiKeys env modelId =
      ⟨[(modelId, TaskState.running),
        (modelId, TaskState.error "No API key configured" true)], none⟩ ∧
    ∀ env2 : TaskEnv, env2.abortedBeforeSend = false →
      runSingleModel false apiKeys env2 modelId =
        runSingleModel false apiKeys env modelId := by
  have hterm : ∀ e : TaskEnv, e.abortedBeforeSend = false →
      taskTerminal false apiKeys e modelId =
        TaskState.error "No API key configured" true := by
    intro e he
    simp [taskTerminal, he, hcred]
  constructor
  · rw [runSingleModel, hterm env hab]
  · intro env2 hab2
    rw [runSingleModel, hterm env2 hab2, runSingleModel, hterm env hab]

theorem runSingleModel_missing_credential_witness :
    runSingleModel false [] ⟨false, false, SendOutcome.success sampleResponse⟩
        "openai:gpt-4o" =
      ⟨[("openai:gpt-4o", TaskState.running),
        ("openai:gpt-4o", TaskState.error "No API key configured" true)], none⟩ :=
  (runSingleModel_missing_credential []
    ⟨false, false, SendOutcome.success sampleResponse⟩ "openai:gpt-4o"
    (by decide) rfl).1

end LlmPrism
